import Mathlib

set_option autoImplicit false

namespace Infrasync

/-!
Shallow embedding of the infrasync resource-discovery and reconciliation
pipeline (Go). Each definition is translated from one Go function or type;
the source file and symbol are named in the doc comment. Go dynamic values
(`any` / `interface` values produced by `encoding/json`) are modelled by
`GoValue`; Go's distinct dynamic types `[]string` and `[]any` are kept as
distinct constructors because type assertions distinguish them. Fallible Go
code is modelled with `Except`; a Go run-time panic (failed unchecked type
assertion) is the `GoErr.panic` outcome, which — unlike a returned `error`
value — propagates past the caller's `if err != nil` checks.
-/

/-- A dynamically typed Go value (`any`), as produced by `encoding/json`
unmarshalling or stored in a resource's `Attributes` map. `strList` is a Go
`[]string`, `anyList` a Go `[]any`, `anyMap` a Go `map[string]any`; Go type
assertions tell these apart, so the model keeps them apart. -/
inductive GoValue where
  | str (s : String)
  | int (n : Int)
  | bool (b : Bool)
  | null
  | strList (xs : List String)
  | anyList (xs : List GoValue)
  | anyMap (entries : List (String × GoValue))

/-- Lookup in a Go `map[string]any`, modelled as an association list with
first-match lookup (insertions cons at the front, so a later insertion of the
same key shadows an earlier one, matching Go map overwrite semantics). -/
def lookupGo : List (String × GoValue) → String → Option GoValue
  | [], _ => none
  | (k, v) :: rest, p => if k = p then some v else lookupGo rest p

/-- The outcome of a fallible Go computation: either a returned `error` value
or a run-time panic (e.g. a failed unchecked interface type assertion). -/
inductive GoErr where
  | err (msg : String)
  | panic (msg : String)
deriving Repr, DecidableEq

/-- Provider identity (`internal/providers/provider.go`): provider kind and
project id. -/
structure Provider where
  type : String
  projectID : String
deriving Repr, DecidableEq

/-- A discovered cloud resource (`internal/providers/google/resource.go`,
`type Resource struct`). `attributes` is the `map[string]any` of declarative
attributes, `dependents` the owned child resources. -/
structure Resource where
  provider : Provider
  type : String
  service : String
  name : String
  id : String
  attributes : List (String × GoValue)
  dependents : List Resource

/-- `google.ResourceTypePubSubTopicIAM` from
`internal/providers/google/resource.go`. -/
def resourceTypePubSubTopicIAM : String := "pubsub_topic_iam"

/-- One parsed resource entry of a state snapshot
(`internal/drift/detector.go`, `type ResourceState struct`). -/
structure ResourceState where
  type : String
  name : String
  provider : String
  id : String
  attributes : List (String × GoValue)

/-- A change of one attribute (`internal/drift/detector.go`, `type Change`). -/
structure Change where
  oldValue : GoValue
  newValue : GoValue

/-- The result of drift detection for one resource
(`internal/drift/detector.go`, `type DriftResult struct`). `changes` models
the `map[string]Change`; the code only ever puts at most one key in it. -/
structure DriftResult where
  resourceType : String
  resourceName : String
  resourceID : String
  hasDrift : Bool
  changes : List (String × Change)

/-- The conversion loop in `DetectDrift` (`detector.go` lines 80–83):
`stateBindingsStr[i] = binding.(string)` is an unchecked type assertion, so a
non-string element panics. -/
def toStringList : List GoValue → Except GoErr (List String)
  | [] => .ok []
  | .str s :: rest => (toStringList rest).map (s :: ·)
  | _ :: _ => .error (.panic "interface conversion: state binding is not a string")

/-- `Detector.DetectDrift` (`internal/drift/detector.go` lines 50–96). Nil
pointer arguments are modelled by `none`. Only resources of type
`pubsub_topic_iam` get their `members` attribute compared, by
`reflect.DeepEqual` on the two string slices (order-sensitive). -/
def detectDrift (resource : Option Resource) (state : Option ResourceState) :
    Except GoErr DriftResult :=
  match resource, state with
  | none, _ => .error (.err "resource or state is nil")
  | some _, none => .error (.err "resource or state is nil")
  | some r, some s =>
    let base : DriftResult := ⟨r.type, r.name, r.id, false, []⟩
    if r.type = resourceTypePubSubTopicIAM then
      match lookupGo r.attributes "members" with
      | some (.strList rb) =>
        match lookupGo s.attributes "members" with
        | some (.anyList sb) =>
          match toStringList sb with
          | .error e => .error e
          | .ok sbs =>
            if rb = sbs then .ok base
            else .ok { base with
              hasDrift := true,
              changes := [("members", ⟨GoValue.strList sbs, GoValue.strList rb⟩)] }
        | _ => .error (.err "invalid state bindings format")
      | _ => .error (.err "invalid resource bindings format")
    else .ok base

/-- Parsing of one entry of the snapshot's `resources` list
(`detector.go` lines 116–136). An entry that is not a JSON object, or whose
`id` is missing or not a string, is skipped (`ok` checks with `continue`);
but `type`, `name`, `provider` and `attributes` are read with unchecked
type assertions, so a missing or ill-typed one panics. `.ok none` means the
entry is skipped. -/
def parseStateEntry (v : GoValue) : Except GoErr (Option (String × ResourceState)) :=
  match v with
  | .anyMap m =>
    match lookupGo m "id" with
    | some (.str id) =>
      match lookupGo m "type" with
      | some (.str ty) =>
        match lookupGo m "name" with
        | some (.str nm) =>
          match lookupGo m "provider" with
          | some (.str pv) =>
            match lookupGo m "attributes" with
            | some (.anyMap attrs) => .ok (some (id, ⟨ty, nm, pv, id, attrs⟩))
            | _ => .error (.panic "interface conversion: attributes is not a map")
          | _ => .error (.panic "interface conversion: provider is not a string")
        | _ => .error (.panic "interface conversion: name is not a string")
      | _ => .error (.panic "interface conversion: type is not a string")
    | _ => .ok none
  | _ => .ok none

/-- The `stateResourcesByID` map-building loop of `DetectResourceDrift`
(`detector.go` lines 115–136), carried as an accumulator; a parsed entry is
consed at the front so that, with first-match lookup, a later duplicate id
overwrites an earlier one exactly as Go map assignment does. -/
def buildStateMap (acc : List (String × ResourceState)) :
    List GoValue → Except GoErr (List (String × ResourceState))
  | [] => .ok acc
  | v :: rest =>
    match parseStateEntry v with
    | .error e => .error e
    | .ok none => buildStateMap acc rest
    | .ok (some (k, rs)) => buildStateMap ((k, rs) :: acc) rest

/-- `stateResourcesByID` built from the snapshot's `resources` entries. -/
def stateResourcesByID (entries : List GoValue) :
    Except GoErr (List (String × ResourceState)) :=
  buildStateMap [] entries

/-- First-match lookup in the `stateResourcesByID` map. -/
def smLookup : List (String × ResourceState) → String → Option ResourceState
  | [], _ => none
  | (k, v) :: rest, p => if k = p then some v else smLookup rest p

/-- The synthetic drift result for a live resource absent from the snapshot
(`detector.go` lines 143–149): `HasDrift=true` with a single `existence`
change from `false` to `true`. -/
def existenceDrift (r : Resource) : DriftResult :=
  ⟨r.type, r.name, r.id, true, [("existence", ⟨GoValue.bool false, GoValue.bool true⟩)]⟩

/-- The contribution of one live resource to the comparison loop of
`DetectResourceDrift` (`detector.go` lines 139–163): absent id yields the
existence drift; present id runs `DetectDrift`, whose returned `error` is
logged and skips the resource (`.ok none`), whose panic propagates, and whose
result is kept only when `HasDrift`. -/
def driftStep (sm : List (String × ResourceState)) (r : Resource) :
    Except GoErr (Option DriftResult) :=
  match smLookup sm r.id with
  | none => .ok (some (existenceDrift r))
  | some st =>
    match detectDrift (some r) (some st) with
    | .error (.panic m) => .error (.panic m)
    | .error (.err _) => .ok none
    | .ok dr => .ok (if dr.hasDrift then some dr else none)

/-- The comparison loop of `DetectResourceDrift` over all live resources,
appending kept results in input order. -/
def driftLoop (sm : List (String × ResourceState)) :
    List Resource → Except GoErr (List DriftResult)
  | [] => .ok []
  | r :: rest =>
    match driftStep sm r with
    | .error e => .error e
    | .ok none => driftLoop sm rest
    | .ok (some dr) => (driftLoop sm rest).map (dr :: ·)

/-- `Detector.DetectResourceDrift` (`detector.go` lines 99–166), taken from
the point after `json.Unmarshal(stateData, &state)`: `stateObj` is the parsed
top-level JSON object. A missing or ill-typed `resources` key is the fatal
"invalid state format" error; otherwise the id map is built and the live
resources are compared. -/
def detectResourceDrift (resources : List Resource)
    (stateObj : List (String × GoValue)) : Except GoErr (List DriftResult) :=
  match lookupGo stateObj "resources" with
  | some (.anyList entries) =>
    match stateResourcesByID entries with
    | .error e => .error e
    | .ok sm => driftLoop sm resources
  | _ => .error (.err "invalid state format: resources not found")

/-- The state snapshot substituted by `sync.Service.Run` (part_004 lines
79–85) when retrieval from the backend fails: `stateData = []byte("{}")`,
which `json.Unmarshal` parses into the empty JSON object. -/
def substitutedEmptyState : List (String × GoValue) := []

/-- `strings.HasPrefix`, via the character list of the string. -/
def strStarts (s p : String) : Bool := decide (s.toList.take p.toList.length = p.toList)

/-- `strings.ReplaceAll` for a single-character pattern, which is exactly a
character-wise replacement. -/
def replaceChar (s : String) (a b : Char) : String :=
  String.mk (s.toList.map fun c => if c = a then b else c)

/-- `sanitizeName` (`internal/providers/google/pubsub.go` lines 195–200):
replaces every `-`, `.` and `/` with `_`. -/
def sanitizeName (name : String) : String :=
  replaceChar (replaceChar (replaceChar name '-' '_') '.' '_') '/' '_'

/-!
### CloudSQL adapter (`src/unnamed/part_005`, the current variant,
lines 298–559: `cloudSQL`, `cloudSQLIterator`, `isImportable`, `isRunning`,
`getDatabases`, `getUsers`)

The string values of the resource-type and service constants
`ResourceTypeSQLInstance`, `ResourceTypeSQLDatabase`, `ResourceTypeSQLUser`,
`ServiceCloudSQL`, `ResourceTypeStorageBucket`,
`ResourceTypeStorageBucketIAMBinding` and `ServiceStorage` are used by the
adapters but their declarations are not under `src` (only the pubsub members
of the enumeration are). Modelled from the spec: the `type` field is "one of
a closed enumeration of declarative-resource kinds"; we pick the evident
terraform names. No claim depends on their exact values.
-/

def resourceTypeSQLInstance : String := "google_sql_database_instance"

def resourceTypeSQLDatabase : String := "google_sql_database"

def resourceTypeSQLUser : String := "google_sql_user"

def serviceCloudSQL : String := "cloudsql"

def resourceTypeStorageBucket : String := "google_storage_bucket"

def resourceTypeStorageBucketIAMBinding : String := "google_storage_bucket_iam_binding"

def serviceStorage : String := "storage"

/-- `sqladmin.MaintenanceWindow`: the fields read by `isImportable`. -/
structure MaintenanceWindow where
  day : Int
  hour : Int
deriving Repr, DecidableEq

/-- `sqladmin.InsightsConfig`: the field read by `isImportable`. -/
structure InsightsConfig where
  queryStringLength : Int
deriving Repr, DecidableEq

/-- `sqladmin.Settings`: the fields read by `isImportable`. Nil pointers are
`none`. -/
structure SqlSettings where
  maintenanceWindow : Option MaintenanceWindow
  insightsConfig : Option InsightsConfig
deriving Repr, DecidableEq

/-- `sqladmin.DatabaseInstance`: the fields read by the adapter. A nil
`Settings` pointer is `none`. -/
structure DatabaseInstance where
  name : String
  databaseVersion : String
  region : String
  state : String
  settings : Option SqlSettings
deriving Repr, DecidableEq

/-- `sqladmin.Database`: the fields read by `getDatabases`. -/
structure SqlDatabase where
  name : String
  charset : String
  collation : String
deriving Repr, DecidableEq

/-- `sqladmin.User`: the fields read by `getUsers`. -/
structure SqlUser where
  name : String
  host : String
deriving Repr, DecidableEq

/-- `isImportable` (part_005 lines 537–555, current variant). It returns an
`error` (`some msg`) when `Settings` is nil, when a maintenance window is
present with day 0 and hour 0, or when an insights config is present with
query string length 0; an instance with no maintenance window or no insights
config at all passes. -/
def isImportable (i : DatabaseInstance) : Option String :=
  match i.settings with
  | none => some "instance settings are nil instance"
  | some st =>
    if (match st.maintenanceWindow with
        | some w => w.day == 0 && w.hour == 0
        | none => false) then
      some "instance maintenance window is invalid instance(Any Window is not supported)"
    else if (match st.insightsConfig with
        | some c => c.queryStringLength == 0
        | none => false) then
      some "instance insights query string length is zero"
    else none

/-- `isRunning` (part_005 lines 557–559, current variant). -/
def isRunning (i : DatabaseInstance) : Bool := i.state == "RUNNABLE"

/-- The upstream SQL admin API as seen by the adapter: the result of
`Databases.List` and `Users.List` for a given instance name. -/
structure CloudSQLEnv where
  databasesList : String → Except String (List SqlDatabase)
  usersList : String → Except String (List SqlUser)

/-- The database resource built by `getDatabases` for one listed database
(part_005 lines 461–480). -/
def mkDatabaseResource (prov : Provider) (instanceName : String) (db : SqlDatabase) :
    Resource where
  provider := prov
  type := resourceTypeSQLDatabase
  service := serviceCloudSQL
  name := sanitizeName instanceName ++ "_" ++ sanitizeName db.name
  id := "projects/" ++ prov.projectID ++ "/instances/" ++ instanceName ++
    "/databases/" ++ db.name
  attributes := [("project", .str prov.projectID), ("instance", .str instanceName),
    ("name", .str db.name), ("charset", .str db.charset),
    ("collation", .str db.collation)]
  dependents := []

/-- `cloudSQL.getDatabases` (part_005 lines 453–484, current variant). -/
def getDatabases (env : CloudSQLEnv) (prov : Provider) (instanceName : String) :
    Except String (List Resource) :=
  match env.databasesList instanceName with
  | .error e => .error ("error listing databases for instance " ++ instanceName ++ ": " ++ e)
  | .ok dbs => .ok (dbs.map (mkDatabaseResource prov instanceName))

/-- The system-user filter of `getUsers` (part_005 line 497). -/
def isSystemUser (n : String) : Bool :=
  strStarts n "mysql." || strStarts n "cloudsqlsuperuser"

/-- The user resource built by `getUsers` for one listed user with the
given id (part_005 lines 518–530). -/
def mkSqlUserResource (prov : Provider) (inst : DatabaseInstance) (u : SqlUser)
    (id : String) : Resource where
  provider := prov
  type := resourceTypeSQLUser
  service := serviceCloudSQL
  name := sanitizeName inst.name ++ "_" ++ sanitizeName u.name
  id := id
  attributes := [("project", .str prov.projectID), ("instance", .str inst.name),
    ("name", .str u.name), ("host", .str u.host)]
  dependents := []

/-- The per-user loop of `cloudSQL.getUsers` (part_005 lines 494–532, current
variant): system users are skipped; a Postgres-family instance gives the
3-part `project/instance/name` id, a MySQL-family instance the 4-part
`project/instance/host/name` id, and any other database version makes the
whole call fail with the unsupported-database-version error. -/
def getUsersLoop (prov : Provider) (inst : DatabaseInstance) :
    List SqlUser → Except String (List Resource)
  | [] => .ok []
  | u :: rest =>
    if isSystemUser u.name then getUsersLoop prov inst rest
    else if strStarts inst.databaseVersion "POSTGRES" then
      (getUsersLoop prov inst rest).map
        (mkSqlUserResource prov inst u
          (prov.projectID ++ "/" ++ inst.name ++ "/" ++ u.name) :: ·)
    else if strStarts inst.databaseVersion "MYSQL" then
      (getUsersLoop prov inst rest).map
        (mkSqlUserResource prov inst u
          (prov.projectID ++ "/" ++ inst.name ++ "/" ++ u.host ++ "/" ++ u.name) :: ·)
    else .error ("unsupported database version " ++ inst.databaseVersion)

/-- `cloudSQL.getUsers` (part_005 lines 486–535, current variant). -/
def getUsers (env : CloudSQLEnv) (prov : Provider) (inst : DatabaseInstance) :
    Except String (List Resource) :=
  match env.usersList inst.name with
  | .error e => .error ("error listing users for instance " ++ inst.name ++ ": " ++ e)
  | .ok us => getUsersLoop prov inst us

/-- The state of `cloudSQLIterator` (part_005 lines 344–352, current
variant). The Go struct keeps the full `instances` slice plus an
`instanceIndex` cursor that is only ever used as `instances[instanceIndex]`
followed by an increment; `remaining` is the suffix of not-yet-processed
instances, i.e. `instances[instanceIndex:]`. `resourceQueue`, `err` and
`isClosed` are as in the source (the queue is read by `Next` but never
appended to in this variant). -/
structure CSState where
  remaining : List DatabaseInstance
  resourceQueue : List Resource
  err : Option GoErr
  isClosed : Bool

/-- The fresh iterator returned by `cloudSQL.Import` (part_005 lines
437–451), holding the instance list fetched upfront. -/
def initCS (instances : List DatabaseInstance) : CSState :=
  ⟨instances, [], none, false⟩

/-- The instance resource built by `cloudSQLIterator.Next` (part_005 lines
388–402). -/
def mkInstanceResource (prov : Provider) (inst : DatabaseInstance) : Resource where
  provider := prov
  type := resourceTypeSQLInstance
  service := serviceCloudSQL
  name := sanitizeName inst.name
  id := "projects/" ++ prov.projectID ++ "/instances/" ++ inst.name
  attributes := [("project", .str prov.projectID), ("name", .str inst.name),
    ("database_version", .str inst.databaseVersion), ("region", .str inst.region)]
  dependents := []

/-- The enrichment of one importable instance by `cloudSQLIterator.Next`
(part_005 lines 388–426): a running instance is enriched with its databases
and users (each appended only when non-empty, as in the source); an error
from either enrichment call is the wrapped error the iterator stores. -/
def instanceOutcome (env : CloudSQLEnv) (prov : Provider) (inst : DatabaseInstance) :
    Except GoErr (Option Resource) :=
  let base := mkInstanceResource prov inst
  if isRunning inst then
    match getDatabases env prov inst.name with
    | .error e =>
      .error (.err ("error getting databases for instance " ++ inst.name ++ ": " ++ e))
    | .ok dbs =>
      match getUsers env prov inst with
      | .error e =>
        .error (.err ("error getting users for instance " ++ inst.name ++ ": " ++ e))
      | .ok us =>
        let d1 := if dbs.isEmpty then base.dependents else base.dependents ++ dbs
        let d2 := if us.isEmpty then d1 else d1 ++ us
        .ok (some { base with dependents := d2 })
  else .ok (some base)

/-- The instance-consuming part of `cloudSQLIterator.Next` (part_005 lines
372–426): a non-importable instance is logged and skipped by the tail call
`return it.Next(ctx)`, which moves straight to the next instance; the
recursion is structural on the remaining instances. Returns the new
remaining suffix and the call's outcome. -/
def processInstances (env : CloudSQLEnv) (prov : Provider) :
    List DatabaseInstance → List DatabaseInstance × Except GoErr (Option Resource)
  | [] => ([], .ok none)
  | inst :: rest =>
    match isImportable inst with
    | some _ => processInstances env prov rest
    | none => (rest, instanceOutcome env prov inst)

/-- `cloudSQLIterator.Next` (part_005 lines 354–427, current variant): a
closed iterator errors; a stored error is returned again; a queued resource
is popped; otherwise instances are consumed. An enrichment error is stored in
`err` before being returned. -/
def nextCS (env : CloudSQLEnv) (prov : Provider) (s : CSState) :
    CSState × Except GoErr (Option Resource) :=
  if s.isClosed then (s, .error (.err "iterator is closed"))
  else
    match s.err with
    | some e => (s, .error e)
    | none =>
      match s.resourceQueue with
      | r :: q => ({ s with resourceQueue := q }, .ok (some r))
      | [] =>
        match processInstances env prov s.remaining with
        | (rem, .ok v) => ({ s with remaining := rem }, .ok v)
        | (rem, .error e) => ({ s with remaining := rem, err := some e }, .error e)

/-- Driving a cloudSQL iterator to completion the way the orchestrator's loop
does (`pkg/infrasync/import.go` lines 160–188): call `Next` until it yields
`nil` (exhausted) or an error; collect the yielded resources and the terminal
error, if any. -/
def drainCS (env : CloudSQLEnv) (prov : Provider) (s : CSState) :
    List Resource × Option GoErr :=
  match h : nextCS env prov s with
  | (_, .error e) => ([], some e)
  | (_, .ok none) => ([], none)
  | (s2, .ok (some r)) =>
    let p := drainCS env prov s2
    (r :: p.1, p.2)
termination_by s.resourceQueue.length + s.remaining.length
decreasing_by
  have key : ∀ (l rem : List DatabaseInstance) (v : Option Resource),
      processInstances env prov l = (rem, .ok v) →
      v.isSome = true → rem.length < l.length := by
    intro l
    induction l with
    | nil =>
      intro rem v h hv
      simp only [processInstances, Prod.mk.injEq, Except.ok.injEq] at h
      rw [← h.2] at hv
      simp at hv
    | cons inst rest ih =>
      intro rem v h hv
      simp only [processInstances] at h
      cases him : isImportable inst with
      | some m =>
        rw [him] at h
        exact Nat.lt_succ_of_lt (ih rem v h hv)
      | none =>
        rw [him] at h
        have h1 : rem = rest := (congrArg Prod.fst h).symm
        rw [h1]
        exact Nat.lt_succ_self _
  simp only [nextCS] at h
  split at h
  · exact absurd (congrArg Prod.snd h) (by simp)
  · split at h
    · exact absurd (congrArg Prod.snd h) (by simp)
    · split at h
      next r0 q hq =>
        have hs2 : s2 = { s with resourceQueue := q } := (congrArg Prod.fst h).symm
        rw [hs2, hq]
        simp
      next hq =>
        split at h
        next rem v heq =>
          have hs2 : s2 = { s with remaining := rem } := (congrArg Prod.fst h).symm
          have hv := congrArg Prod.snd h
          have hv2 : v = some r := by simpa using hv
          have hlt := key s.remaining rem v heq (by rw [hv2]; rfl)
          rw [hs2]
          simp
          omega
        next rem e heq => exact absurd (congrArg Prod.snd h) (by simp)

/-!
### Object-storage adapter
(`src/internal/providers/google/gcloudclient/cloudsql/client.go`, second
concatenated file, lines 37–189: `gcsStorage`, `storageIterator`,
`getBucketIAMBindings`)
-/

/-- `storage.BucketAttrs`: the fields read by the adapter. -/
structure BucketAttrs where
  name : String
  location : String
  storageClass : String
deriving Repr, DecidableEq

/-- The upstream storage API as seen by the adapter: the bucket-level IAM
policy of a bucket, as the list of (role, members) pairs that
`policy.Roles()` / `policy.Members(role)` expose. -/
structure StorageEnv where
  policy : String → Except String (List (String × List String))

/-- The bucket resource built by `storageIterator.Next` (client.go lines
111–123) before IAM enrichment; the import id of a bucket is just its
name. -/
def mkBucketResource (prov : Provider) (attrs : BucketAttrs) : Resource where
  provider := prov
  type := resourceTypeStorageBucket
  service := serviceStorage
  name := sanitizeName attrs.name
  id := attrs.name
  attributes := [("name", .str attrs.name), ("project", .str prov.projectID),
    ("location", .str attrs.location), ("storage_class", .str attrs.storageClass)]
  dependents := []

/-- One IAM-binding dependent built by `getBucketIAMBindings` (client.go
lines 166–185) for a role with a non-empty member list. -/
def mkBucketIAMResource (prov : Provider) (bucketName role : String)
    (members : List String) : Resource where
  provider := prov
  type := resourceTypeStorageBucketIAMBinding
  service := serviceStorage
  name := sanitizeName bucketName ++ "_"
    ++ sanitizeName (replaceChar (replaceChar role '/' '_') '.' '_')
  id := bucketName ++ " " ++ role
  attributes := [("bucket", .str bucketName), ("role", .str role),
    ("members", .strList members)]
  dependents := []

/-- `gcsStorage.getBucketIAMBindings` (client.go lines 157–189): a policy
fetch error is returned; otherwise each role with a non-empty member list
becomes one binding resource. -/
def getBucketIAMBindings (env : StorageEnv) (prov : Provider) (bucketName : String) :
    Except String (List Resource) :=
  match env.policy bucketName with
  | .error e => .error ("error getting IAM policy for bucket " ++ bucketName ++ ": " ++ e)
  | .ok roles =>
    .ok (roles.filterMap fun rm =>
      if rm.2.isEmpty then none
      else some (mkBucketIAMResource prov bucketName rm.1 rm.2))

/-- The state of `storageIterator` (client.go lines 71–78). The underlying
`storage.BucketIterator` is modelled as the list of outcomes its successive
`Next` calls produce, ending with `iterator.Done`; `resourceQueue`, `err`
and `isClosed` are as in the source (the queue is read but never appended to
in this adapter). -/
structure STState where
  upstream : List (Except String BucketAttrs)
  resourceQueue : List Resource
  err : Option GoErr
  isClosed : Bool

/-- The fresh iterator returned by `gcsStorage.Import` (client.go lines
145–155). -/
def initST (upstream : List (Except String BucketAttrs)) : STState :=
  ⟨upstream, [], none, false⟩

/-- The resource yielded by `storageIterator.Next` for one bucket (client.go
lines 108–134): the bucket resource, enriched with its IAM-binding
dependents when the policy fetch succeeds with a non-empty result; a policy
fetch failure is logged and the bare bucket resource is yielded. -/
def bucketYield (env : StorageEnv) (prov : Provider) (attrs : BucketAttrs) : Resource :=
  let base := mkBucketResource prov attrs
  match getBucketIAMBindings env prov attrs.name with
  | .error _ => base
  | .ok binds =>
    if binds.isEmpty then base
    else { base with dependents := base.dependents ++ binds }

/-- `storageIterator.Next` (client.go lines 80–135): a closed iterator
errors; a stored error is returned again; a queued resource is popped;
upstream exhaustion (`iterator.Done`) yields `nil`; an upstream bucket
listing error is stored in `err` and returned; otherwise the next bucket is
yielded, with best-effort IAM enrichment. -/
def nextST (env : StorageEnv) (prov : Provider) (s : STState) :
    STState × Except GoErr (Option Resource) :=
  if s.isClosed then (s, .error (.err "iterator is closed"))
  else
    match s.err with
    | some e => (s, .error e)
    | none =>
      match s.resourceQueue with
      | r :: q => ({ s with resourceQueue := q }, .ok (some r))
      | [] =>
        match s.upstream with
        | [] => (s, .ok none)
        | .error e :: rest =>
          let ge := GoErr.err ("error iterating buckets: " ++ e)
          ({ s with upstream := rest, err := some ge }, .error ge)
        | .ok attrs :: rest =>
          ({ s with upstream := rest }, .ok (some (bucketYield env prov attrs)))

/-- Driving a storage iterator to completion the way the orchestrator's loop
does: call `Next` until it yields `nil` or an error. -/
def drainST (env : StorageEnv) (prov : Provider) (s : STState) :
    List Resource × Option GoErr :=
  match h : nextST env prov s with
  | (_, .error e) => ([], some e)
  | (_, .ok none) => ([], none)
  | (s2, .ok (some r)) =>
    let p := drainST env prov s2
    (r :: p.1, p.2)
termination_by s.resourceQueue.length + s.upstream.length
decreasing_by
  simp only [nextST] at h
  split at h
  · exact absurd (congrArg Prod.snd h) (by simp)
  · split at h
    · exact absurd (congrArg Prod.snd h) (by simp)
    · split at h
      next r0 q hq =>
        have hs2 : s2 = { s with resourceQueue := q } := (congrArg Prod.fst h).symm
        rw [hs2, hq]
        simp
      next hq =>
        split at h
        · exact absurd (congrArg Prod.snd h) (by simp)
        · exact absurd (congrArg Prod.snd h) (by simp)
        next attrs rest hup =>
          have hs2 : s2 = { s with upstream := rest } := (congrArg Prod.fst h).symm
          rw [hs2, hup]
          simp

/-!
### Import runner and orchestrator
(`src/internal/tfimport/runner.go` and `src/pkg/infrasync/import.go`)

The on-disk state is modelled as an association list from file path to file
contents with first-match lookup; writing conses at the front, deleting
filters the key out.
-/

/-- The declarative files on disk, path to contents. -/
def Fs : Type := List (String × String)

/-- File lookup (`os.Stat` succeeds exactly when the lookup is `some`). -/
def fsLookup : Fs → String → Option String
  | [], _ => none
  | (k, v) :: rest, p => if k = p then some v else fsLookup rest p

/-- File write. -/
def fsInsert (fs : Fs) (k v : String) : Fs := (k, v) :: (fs : List (String × String))

/-- File removal (`os.Remove` of an existing path). -/
def fsRemove (fs : Fs) (k : String) : Fs :=
  (fs : List (String × String)).filter fun e => !(e.1 = k : Bool)

/-- The error outcomes of the import runner: the sentinel
`ErrAlreadyExists` (`runner.go` line 21), distinguished by `errors.Is`, or
any other error. -/
inductive ImportErr where
  | alreadyExists
  | msg (s : String)
deriving Repr, DecidableEq

/-- The `terraform` subprocess as seen by `generator.Import`: invoked with
`-generate-config-out=path`, it either fails or writes generated contents to
that path. -/
structure TfEnv where
  plan : String → Except String String

/-- The resource directory derived by `generator.Import` (`runner.go` line
47): `workingDir/resources/{provider}/{project}/{service}`. -/
def resourceDir (wd : String) (r : Resource) : String :=
  wd ++ "/resources/" ++ r.provider.type ++ "/" ++ r.provider.projectID ++ "/" ++ r.service

/-- The declarative file path derived by `generator.Import` (`runner.go`
line 48): `{resourceDir}/{name}.tf`. -/
def resourceFilePath (wd : String) (r : Resource) : String :=
  resourceDir wd r ++ "/" ++ r.name ++ ".tf"

/-- The import-block path used by `generator.CleanupImportBlocks`
(`runner.go` line 82): `workingDir/{name}.tf`. -/
def importBlockPath (wd : String) (r : Resource) : String :=
  wd ++ "/" ++ r.name ++ ".tf"

/-- `generator.Import` (`runner.go` lines 41–79): if the declarative file
already exists at the derived path, return `ErrAlreadyExists` immediately,
touching nothing; otherwise run the subprocess, which on success writes the
generated file. Directory creation has no effect in the path-to-contents
model. -/
def runnerImport (env : TfEnv) (fs : Fs) (wd : String) (r : Resource) :
    Fs × Except ImportErr Unit :=
  if (fsLookup fs (resourceFilePath wd r)).isSome then (fs, .error .alreadyExists)
  else
    match env.plan (resourceFilePath wd r) with
    | .error e => (fs, .error (.msg ("failed to import resource: " ++ e)))
    | .ok contents => (fsInsert fs (resourceFilePath wd r) contents, .ok ())

/-- `generator.CleanupImportBlocks` (`runner.go` lines 81–87): remove the
block file; `os.Remove` of a missing path is an error. -/
def cleanupImportBlocks (fs : Fs) (wd : String) (r : Resource) :
    Fs × Except ImportErr Unit :=
  if (fsLookup fs (importBlockPath wd r)).isSome then
    (fsRemove fs (importBlockPath wd r), .ok ())
  else (fs, .error (.msg "failed to remove import block file: file does not exist"))

/-- Modelled from the spec: `importer.SaveImportBlock` is called by
`Client.ImportService` (import.go line 170) but its implementation is not
under `src` (only `NewImporter` and the `TerraformImporter` interface are).
Per the spec, the orchestrator must "persist an import-intent artifact keyed
by resource name"; we model it as writing the import-intent file at the path
that `CleanupImportBlocks` later removes. The contents are immaterial to
every claim. -/
def saveImportBlock (fs : Fs) (wd : String) (r : Resource) : Fs :=
  fsInsert fs (importBlockPath wd r) ("import " ++ r.type ++ "." ++ r.name ++ " " ++ r.id)

/-- One loop iteration of `Client.ImportService` (import.go lines 160–188)
for one yielded resource: save the import block, run the runner's `Import` —
downgrading `ErrAlreadyExists` to a log entry, propagating any other error —
then clean up the import block (whose failure is fatal). `.ok` carries the
file system with which the loop proceeds to the next resource. -/
def importServiceStep (env : TfEnv) (fs : Fs) (wd : String) (r : Resource) :
    Except ImportErr Fs :=
  let fs1 := saveImportBlock fs wd r
  match runnerImport env fs1 wd r with
  | (_, .error (.msg e)) => .error (.msg ("failed to import resource: " ++ e))
  | (fs2, .error .alreadyExists) =>
    match cleanupImportBlocks fs2 wd r with
    | (fs3, .ok _) => .ok fs3
    | (_, .error _) => .error (.msg "failed to cleanup import blocks")
  | (fs2, .ok _) =>
    match cleanupImportBlocks fs2 wd r with
    | (fs3, .ok _) => .ok fs3
    | (_, .error _) => .error (.msg "failed to cleanup import blocks")

/-- The resource loop of `Client.ImportService` (import.go lines 160–188)
over the resources the iterator yields, threading the file system; the first
fatal error aborts the service's import. -/
def importServiceLoop (env : TfEnv) (fs : Fs) (wd : String) :
    List Resource → Except ImportErr Fs
  | [] => .ok fs
  | r :: rest =>
    match importServiceStep env fs wd r with
    | .error e => .error e
    | .ok fs2 => importServiceLoop env fs2 wd rest

/-!
### Concrete inputs used by witnesses and counterexamples
-/

/-- A live pubsub-topic IAM-binding resource with members `["a","b"]`. -/
def c1Live : Resource :=
  ⟨⟨"google", "p"⟩, "pubsub_topic_iam", "pubsub", "t1_roles_viewer",
    "projects/p/topics/t1 roles/viewer",
    [("members", .strList ["a", "b"])], []⟩

/-- The matching snapshot entry with the same members in the other order. -/
def c1State : ResourceState :=
  ⟨"pubsub_topic_iam", "t1_roles_viewer", "google",
    "projects/p/topics/t1 roles/viewer",
    [("members", .anyList [.str "b", .str "a"])]⟩

/-- A parsed snapshot containing exactly the entry `c1State`. -/
def c1Snapshot : List (String × GoValue) :=
  [("resources", .anyList [.anyMap
    [("id", .str "projects/p/topics/t1 roles/viewer"),
     ("type", .str "pubsub_topic_iam"),
     ("name", .str "t1_roles_viewer"),
     ("provider", .str "google"),
     ("attributes", .anyMap [("members", .anyList [.str "b", .str "a"])])]])]

/-- A live pubsub topic for existence-drift scenarios. -/
def c5Res : Resource :=
  ⟨⟨"google", "p"⟩, "pubsub_topic", "pubsub", "t1", "projects/p/topics/t1", [], []⟩

/-- A non-IAM live resource whose attributes differ from the snapshot's. -/
def c10Res : Resource :=
  ⟨⟨"google", "p"⟩, "pubsub_topic", "pubsub", "t", "tid",
    [("labels", .str "live")], []⟩

/-- A snapshot entry for `c10Res` with different attributes. -/
def c10St : ResourceState :=
  ⟨"pubsub_topic", "t", "google", "tid", [("labels", .str "recorded")]⟩

/-- A state map containing `c10St` under the live resource's id. -/
def c10Sm : List (String × ResourceState) := [("tid", c10St)]

/-- A CloudSQL instance whose settings are present but whose maintenance
window and insights config are absent, and which is not running. -/
def c6Inst : DatabaseInstance := ⟨"db1", "POSTGRES_14", "us", "STOPPED", some ⟨none, none⟩⟩

/-- An environment whose enrichment calls all fail; never consulted for a
non-running instance. -/
def c6Env : CloudSQLEnv := ⟨fun _ => .error "unused", fun _ => .error "unused"⟩

def c6Prov : Provider := ⟨"google", "p"⟩

/-- A running Postgres instance with well-formed window and insights. -/
def c7Inst : DatabaseInstance :=
  ⟨"db1", "POSTGRES_14", "us", "RUNNABLE", some ⟨some ⟨7, 3⟩, some ⟨1024⟩⟩⟩

/-- A non-system SQL user. -/
def c7User : SqlUser := ⟨"alice", "%"⟩

/-- An environment listing exactly the user `c7User` and no databases. -/
def c7Env : CloudSQLEnv := ⟨fun _ => .ok [], fun _ => .ok [c7User]⟩

/-- A running instance enriched through an environment whose database
listing fails, for the sticky-error scenario. -/
def c9Inst : DatabaseInstance :=
  ⟨"db9", "POSTGRES_14", "us", "RUNNABLE", some ⟨some ⟨7, 3⟩, some ⟨1024⟩⟩⟩

def c9Env : CloudSQLEnv := ⟨fun _ => .error "rpc deadline", fun _ => .ok []⟩

/-- The wrapped error `cloudSQLIterator.Next` stores for `c9Inst` under
`c9Env`. -/
def c9Err : GoErr :=
  .err ("error getting databases for instance db9: "
    ++ "error listing databases for instance db9: rpc deadline")

/-- A storage upstream error and the wrapped error the iterator stores. -/
def c9StErr : GoErr := .err "error iterating buckets: precondition failed"

def c9StEnv : StorageEnv := ⟨fun _ => .ok []⟩

/-- Three buckets; the policy fetch for `b1` fails, the others succeed. -/
def c8B1 : BucketAttrs := ⟨"b1", "us", "STANDARD"⟩

def c8B2 : BucketAttrs := ⟨"b2", "us", "STANDARD"⟩

def c8B3 : BucketAttrs := ⟨"b3", "us", "STANDARD"⟩

def c8Env : StorageEnv :=
  ⟨fun n => if n = "b1" then .error "permission denied"
    else .ok [("roles/storage.admin", ["user:a@example.com"])]⟩

def c8Prov : Provider := ⟨"google", "p"⟩

/-- A resource whose declarative file will already exist on disk. -/
def c4Res : Resource :=
  ⟨⟨"google", "p"⟩, "google_pubsub_topic", "pubsub", "t1",
    "projects/p/topics/t1", [], []⟩

/-- A file system already holding the declarative file for `c4Res` under
working directory `w`. -/
def c4Fs : Fs := [("w/resources/google/p/pubsub/t1.tf", "resource t1 original")]

def c4Env : TfEnv := ⟨fun _ => .ok "generated"⟩

end Infrasync

namespace Infrasync

/-!
## Theorems
-/

section DriftDetector

/-- `driftLoop` distributes over list append: the loop runs the first part,
then the second, concatenating kept results, with the first error winning. -/
theorem driftLoop_append (sm : List (String × ResourceState)) (l1 l2 : List Resource) :
    driftLoop sm (l1 ++ l2) =
      (driftLoop sm l1).bind fun r1 => (driftLoop sm l2).map (r1 ++ ·) := by
  induction l1 with
  | nil =>
    cases h2 : driftLoop sm l2 <;> simp [driftLoop, h2, Except.bind, Except.map]
  | cons r rest ih =>
    cases hs : driftStep sm r with
    | error e => simp [driftLoop, hs, Except.bind]
    | ok v =>
      cases v with
      | none => simp [driftLoop, hs, ih]
      | some dr =>
        simp only [List.cons_append, driftLoop, hs, List.append_eq]
        rw [ih]
        cases h1 : driftLoop sm rest <;> cases h2 : driftLoop sm l2 <;>
          simp [Except.bind, Except.map]

/-- Claim C1: the spec requires member-list comparison to be insensitive to
element order, but `DetectDrift` compares the two slices with
`reflect.DeepEqual`, which is order-sensitive: live members `["a","b"]`
against recorded members `["b","a"]` are reported as drift with a `members`
change, both from `DetectDrift` directly and through `DetectResourceDrift`. -/
theorem c1_members_order_reported_as_drift :
    detectDrift (some c1Live) (some c1State) =
      .ok ⟨"pubsub_topic_iam", "t1_roles_viewer", "projects/p/topics/t1 roles/viewer",
        true, [("members", ⟨GoValue.strList ["b", "a"], GoValue.strList ["a", "b"]⟩)]⟩
    ∧ detectResourceDrift [c1Live] c1Snapshot =
      .ok [⟨"pubsub_topic_iam", "t1_roles_viewer", "projects/p/topics/t1 roles/viewer",
        true, [("members", ⟨GoValue.strList ["b", "a"], GoValue.strList ["a", "b"]⟩)]⟩] :=
  ⟨rfl, rfl⟩

/-- Claim C2: a snapshot entry with a string `id` but a missing `type` makes
`DetectResourceDrift` panic through the unchecked assertion
`resMap["type"].(string)` — the entry is not skipped. Entries that are not
objects or lack a string `id` are skipped, and a missing top-level
`resources` key is the fatal error, as the claim says. -/
theorem c2_malformed_entry_panics :
    detectResourceDrift [] [("resources", .anyList [.anyMap [("id", .str "x")]])]
      = .error (.panic "interface conversion: type is not a string")
    ∧ detectResourceDrift []
        [("resources", .anyList [.str "junk", .anyMap [("type", .str "t")]])] = .ok []
    ∧ detectResourceDrift [] [("count", .int 0)]
      = .error (.err "invalid state format: resources not found") :=
  ⟨rfl, rfl, rfl⟩

/-- Claim C3: when state retrieval fails, `sync.Service.Run` substitutes
`[]byte("{}")`; but the empty object has no `resources` key, so
`DetectResourceDrift` fails with the fatal "invalid state format" error for
every list of live resources — per-service drift detection aborts instead of
reporting everything as new. -/
theorem c3_substituted_empty_state_fails_detection (resources : List Resource) :
    detectResourceDrift resources substitutedEmptyState =
      .error (.err "invalid state format: resources not found") := rfl

/-- Claim C5: a live resource whose id is absent from the state map
contributes exactly one `DriftResult` to `DetectResourceDrift`'s output, in
position, with `HasDrift=true` and the single synthetic `existence` change
from `false` to `true`. -/
theorem c5_absent_resource_existence_drift
    (stateObj : List (String × GoValue)) (entries : List GoValue)
    (sm : List (String × ResourceState)) (pre post : List Resource) (r : Resource)
    (rpre rpost : List DriftResult)
    (hres : lookupGo stateObj "resources" = some (.anyList entries))
    (hsm : stateResourcesByID entries = .ok sm)
    (habs : smLookup sm r.id = none)
    (hpre : driftLoop sm pre = .ok rpre)
    (hpost : driftLoop sm post = .ok rpost) :
    detectResourceDrift (pre ++ r :: post) stateObj = .ok (rpre ++ existenceDrift r :: rpost)
    ∧ (existenceDrift r).hasDrift = true
    ∧ (existenceDrift r).changes
        = [("existence", ⟨GoValue.bool false, GoValue.bool true⟩)] := by
  refine ⟨?_, rfl, rfl⟩
  simp only [detectResourceDrift, hres, hsm]
  rw [driftLoop_append, hpre]
  simp only [driftLoop, driftStep, habs, hpost]
  simp [Except.bind, Except.map]

/-- Witness for C5: the spec's own scenario — live topic
`projects/p/topics/t1`, snapshot with zero resources. -/
theorem c5_witness :
    detectResourceDrift [c5Res] [("resources", GoValue.anyList [])]
      = .ok [existenceDrift c5Res]
    ∧ (existenceDrift c5Res).hasDrift = true
    ∧ (existenceDrift c5Res).changes
        = [("existence", ⟨GoValue.bool false, GoValue.bool true⟩)] := by
  have h := c5_absent_resource_existence_drift [("resources", GoValue.anyList [])]
    [] [] [] [] c5Res [] [] rfl rfl rfl rfl rfl
  simpa using h

/-- Claim C10: `DetectDrift` compares attributes only for the
pubsub-topic-IAM type: any other resource type paired with any state entry
yields `HasDrift=false` with an empty changes map, whatever the attributes;
consequently such a resource, when present in the state map, contributes
nothing to `DetectResourceDrift`'s results. -/
theorem c10_non_iam_types_never_drift
    (r : Resource) (st : ResourceState) (sm : List (String × ResourceState))
    (rest : List Resource)
    (h : r.type ≠ resourceTypePubSubTopicIAM) :
    detectDrift (some r) (some st) = .ok ⟨r.type, r.name, r.id, false, []⟩
    ∧ (smLookup sm r.id = some st → driftLoop sm (r :: rest) = driftLoop sm rest) := by
  constructor
  · simp [detectDrift, h]
  · intro hm
    simp [driftLoop, driftStep, hm, detectDrift, h]

/-- Witness for C10: a pubsub topic whose live attributes differ from the
recorded ones is not reported. -/
theorem c10_witness :
    detectDrift (some c10Res) (some c10St) = .ok ⟨"pubsub_topic", "t", "tid", false, []⟩
    ∧ driftLoop c10Sm [c10Res] = driftLoop c10Sm [] := by
  have h := c10_non_iam_types_never_drift c10Res c10St c10Sm [] (by decide)
  exact ⟨h.1, h.2 (by rfl)⟩

end DriftDetector

section ImportOrchestrator

/-- Writing one path leaves lookups of any other path unchanged. -/
theorem fsLookup_insert_ne {k p : String} (fs : Fs) (v : String) (h : k ≠ p) :
    fsLookup (fsInsert fs k v) p = fsLookup fs p := by
  simp [fsInsert, fsLookup, h]

/-- Looking up the path just written yields the written contents. -/
theorem fsLookup_insert_self (fs : Fs) (k v : String) :
    fsLookup (fsInsert fs k v) k = some v := by
  simp [fsInsert, fsLookup]

/-- Removing one path leaves lookups of any other path unchanged. -/
theorem fsLookup_remove_ne {k p : String} (fs : Fs) (h : k ≠ p) :
    fsLookup (fsRemove fs k) p = fsLookup fs p := by
  induction fs with
  | nil => rfl
  | cons e rest ih =>
    rcases e with ⟨k1, v1⟩
    by_cases h1 : k1 = k
    · subst h1
      have h2 : ¬ (k1 = p) := h
      simp only [fsRemove, List.filter_cons] at ih ⊢
      simpa [fsLookup, h2] using ih
    · by_cases h2 : k1 = p
      · subst h2
        simp [fsRemove, fsLookup, List.filter_cons, h1]
      · simp only [fsRemove, List.filter_cons] at ih ⊢
        simpa [fsLookup, h1, h2] using ih

/-- Claim C4: when the declarative file for a resource already exists at its
derived path, the runner's `Import` returns `ErrAlreadyExists` with the file
system untouched; and the orchestrator's `ImportService` loop downgrades that
outcome and proceeds to the remaining resources with the declarative file's
contents intact. The hypothesis `hne` records that the transient
block-file path differs from the declarative file path (they live in
distinct subtrees). -/
theorem c4_import_already_exists_idempotent
    (env : TfEnv) (fs : Fs) (wd : String) (r : Resource) (rest : List Resource)
    (c : String)
    (hex : fsLookup fs (resourceFilePath wd r) = some c)
    (hne : importBlockPath wd r ≠ resourceFilePath wd r) :
    runnerImport env (saveImportBlock fs wd r) wd r
      = (saveImportBlock fs wd r, .error .alreadyExists)
    ∧ ∃ fs2, importServiceLoop env fs wd (r :: rest) = importServiceLoop env fs2 wd rest
        ∧ fsLookup fs2 (resourceFilePath wd r) = some c := by
  have hl1 : fsLookup (saveImportBlock fs wd r) (resourceFilePath wd r) = some c := by
    rw [saveImportBlock, fsLookup_insert_ne _ _ hne]
    exact hex
  have hrun : runnerImport env (saveImportBlock fs wd r) wd r
      = (saveImportBlock fs wd r, .error .alreadyExists) := by
    simp [runnerImport, hl1]
  refine ⟨hrun, fsRemove (saveImportBlock fs wd r) (importBlockPath wd r), ?_, ?_⟩
  · have hib : fsLookup (saveImportBlock fs wd r) (importBlockPath wd r)
        = some ("import " ++ r.type ++ "." ++ r.name ++ " " ++ r.id) := by
      rw [saveImportBlock]
      exact fsLookup_insert_self ..
    have hstep : importServiceStep env fs wd r
        = .ok (fsRemove (saveImportBlock fs wd r) (importBlockPath wd r)) := by
      simp [importServiceStep, hrun, cleanupImportBlocks, hib]
    simp [importServiceLoop, hstep]
  · rw [fsLookup_remove_ne _ hne]
    exact hl1

/-- Witness for C4: a second import of pubsub topic `t1` whose declarative
file already exists under working directory `w`. -/
theorem c4_witness :
    runnerImport c4Env (saveImportBlock c4Fs "w" c4Res) "w" c4Res
      = (saveImportBlock c4Fs "w" c4Res, .error .alreadyExists)
    ∧ ∃ fs2, importServiceLoop c4Env c4Fs "w" (c4Res :: [])
        = importServiceLoop c4Env fs2 "w" []
        ∧ fsLookup fs2 (resourceFilePath "w" c4Res) = some "resource t1 original" :=
  c4_import_already_exists_idempotent c4Env c4Fs "w" c4Res [] "resource t1 original"
    (by decide) (by decide)

end ImportOrchestrator

section CloudSQLAdapter

/-- Claim C7: the per-user loop of `getUsers` builds a 3-part
`project/instance/name` import id for Postgres-family instances, a 4-part
`project/instance/host/name` id for MySQL-family instances, and fails with
the unsupported-database-version error for any other engine as soon as a
non-system user is reached; `getUsers` itself runs this loop on the listed
users. -/
theorem c7_getUsers_id_format
    (env : CloudSQLEnv) (prov : Provider) (inst : DatabaseInstance) (u : SqlUser)
    (rest : List SqlUser) (users : List SqlUser)
    (hns : isSystemUser u.name = false)
    (hus : env.usersList inst.name = .ok users) :
    getUsers env prov inst = getUsersLoop prov inst users
    ∧ (strStarts inst.databaseVersion "POSTGRES" = true →
        getUsersLoop prov inst (u :: rest) = (getUsersLoop prov inst rest).map
          (mkSqlUserResource prov inst u
            (prov.projectID ++ "/" ++ inst.name ++ "/" ++ u.name) :: ·))
    ∧ (strStarts inst.databaseVersion "POSTGRES" = false →
       strStarts inst.databaseVersion "MYSQL" = true →
        getUsersLoop prov inst (u :: rest) = (getUsersLoop prov inst rest).map
          (mkSqlUserResource prov inst u
            (prov.projectID ++ "/" ++ inst.name ++ "/" ++ u.host ++ "/" ++ u.name) :: ·))
    ∧ (strStarts inst.databaseVersion "POSTGRES" = false →
       strStarts inst.databaseVersion "MYSQL" = false →
        getUsersLoop prov inst (u :: rest)
          = .error ("unsupported database version " ++ inst.databaseVersion)) := by
  refine ⟨by simp [getUsers, hus], ?_, ?_, ?_⟩
  · intro hpg
    simp [getUsersLoop, hns, hpg]
  · intro hpg hmy
    simp [getUsersLoop, hns, hpg, hmy]
  · intro hpg hmy
    simp [getUsersLoop, hns, hpg, hmy]

/-- Witness for C7: a Postgres-family instance with one non-system user
yields exactly the 3-part id `p/db1/alice`. -/
theorem c7_witness :
    getUsers c7Env ⟨"google", "p"⟩ c7Inst
      = .ok [mkSqlUserResource ⟨"google", "p"⟩ c7Inst c7User "p/db1/alice"] := by
  have h := c7_getUsers_id_format c7Env ⟨"google", "p"⟩ c7Inst c7User [] [c7User]
    (by decide) rfl
  rw [h.1, h.2.1 (by decide)]
  rfl

end CloudSQLAdapter

section Iterators

/-- Unfolding of `drainCS` when `Next` returns an error. -/
theorem drainCS_error {env : CloudSQLEnv} {prov : Provider} {s s2 : CSState} {e : GoErr}
    (h : nextCS env prov s = (s2, .error e)) : drainCS env prov s = ([], some e) := by
  rw [drainCS.eq_def]
  split
  next x e2 heq =>
    rw [h] at heq
    have h2 := Except.error.inj (congrArg Prod.snd heq)
    rw [h2]
  next x heq =>
    rw [h] at heq
    exact absurd (congrArg Prod.snd heq) (by simp)
  next x r heq =>
    rw [h] at heq
    exact absurd (congrArg Prod.snd heq) (by simp)

/-- Unfolding of `drainCS` when `Next` signals exhaustion. -/
theorem drainCS_done {env : CloudSQLEnv} {prov : Provider} {s s2 : CSState}
    (h : nextCS env prov s = (s2, .ok none)) : drainCS env prov s = ([], none) := by
  rw [drainCS.eq_def]
  split
  next x e2 heq =>
    rw [h] at heq
    exact absurd (congrArg Prod.snd heq) (by simp)
  next x heq => rfl
  next x r heq =>
    rw [h] at heq
    exact absurd (congrArg Prod.snd heq) (by simp)

/-- Unfolding of `drainCS` when `Next` yields a resource. -/
theorem drainCS_yield {env : CloudSQLEnv} {prov : Provider} {s s2 : CSState} {r : Resource}
    (h : nextCS env prov s = (s2, .ok (some r))) :
    drainCS env prov s = (r :: (drainCS env prov s2).1, (drainCS env prov s2).2) := by
  rw [drainCS.eq_def]
  split
  next x e2 heq =>
    rw [h] at heq
    exact absurd (congrArg Prod.snd heq) (by simp)
  next x heq =>
    rw [h] at heq
    exact absurd (congrArg Prod.snd heq) (by simp)
  next x r2 heq =>
    rw [h] at heq
    have hx : s2 = x := congrArg Prod.fst heq
    have h2 : r = r2 := Option.some.inj (Except.ok.inj (congrArg Prod.snd heq))
    rw [← hx, ← h2]

/-- Equal `Next` outcomes give equal drains. -/
theorem drainCS_congr {env : CloudSQLEnv} {prov : Provider} {s t : CSState}
    (h : nextCS env prov s = nextCS env prov t) :
    drainCS env prov s = drainCS env prov t := by
  rcases hn : nextCS env prov t with ⟨t2, out⟩
  have hs := h.trans hn
  match out with
  | .error e => rw [drainCS_error hs, drainCS_error hn]
  | .ok none => rw [drainCS_done hs, drainCS_done hn]
  | .ok (some r) => rw [drainCS_yield hs, drainCS_yield hn]

/-- `Next` on a fresh-shaped state consumes the remaining instances. -/
theorem nextCS_initCS_ok {env : CloudSQLEnv} {prov : Provider}
    {l rem : List DatabaseInstance} {v : Option Resource}
    (h : processInstances env prov l = (rem, .ok v)) :
    nextCS env prov (initCS l) = (initCS rem, .ok v) := by
  simp [nextCS, initCS, h]

/-- `Next` on a fresh-shaped state stores an enrichment error. -/
theorem nextCS_initCS_err {env : CloudSQLEnv} {prov : Provider}
    {l rem : List DatabaseInstance} {e : GoErr}
    (h : processInstances env prov l = (rem, .error e)) :
    nextCS env prov (initCS l) = (⟨rem, [], some e, false⟩, .error e) := by
  simp [nextCS, initCS, h]

/-- A non-importable instance is skipped by the instance-consuming loop. -/
theorem processInstances_skip {env : CloudSQLEnv} {prov : Provider}
    {i : DatabaseInstance} {m : String} (rest : List DatabaseInstance)
    (him : isImportable i = some m) :
    processInstances env prov (i :: rest) = processInstances env prov rest := by
  simp [processInstances, him]

/-- An importable instance is consumed with its enrichment outcome. -/
theorem processInstances_keep {env : CloudSQLEnv} {prov : Provider}
    {i : DatabaseInstance} (rest : List DatabaseInstance)
    (him : isImportable i = none) :
    processInstances env prov (i :: rest) = (rest, instanceOutcome env prov i) := by
  simp [processInstances, him]

/-- Draining a fresh cloudSQL iterator produces the same resources and the
same terminal outcome as draining one over only the importable instances:
the instances failing the importability predicate contribute nothing and
cause no error. -/
theorem drainCS_filter_importable (env : CloudSQLEnv) (prov : Provider) :
    ∀ l : List DatabaseInstance,
      drainCS env prov (initCS l) =
        drainCS env prov (initCS (l.filter fun i => (isImportable i).isNone)) := by
  intro l
  induction l with
  | nil => rfl
  | cons i rest ih =>
    cases him : isImportable i with
    | some m =>
      have hf : (i :: rest).filter (fun i => (isImportable i).isNone)
          = rest.filter (fun i => (isImportable i).isNone) := by
        simp [List.filter_cons, him]
      rw [hf]
      have hnx : nextCS env prov (initCS (i :: rest)) = nextCS env prov (initCS rest) := by
        rcases hp : processInstances env prov rest with ⟨rem, out⟩
        have hp2 : processInstances env prov (i :: rest) = (rem, out) := by
          rw [processInstances_skip rest him, hp]
        cases out with
        | error e => rw [nextCS_initCS_err hp2, nextCS_initCS_err hp]
        | ok v => rw [nextCS_initCS_ok hp2, nextCS_initCS_ok hp]
      exact (drainCS_congr hnx).trans ih
    | none =>
      have hf : (i :: rest).filter (fun i => (isImportable i).isNone)
          = i :: rest.filter (fun i => (isImportable i).isNone) := by
        simp [List.filter_cons, him]
      rw [hf]
      have hkeep := @processInstances_keep env prov i rest him
      have hkeepF := @processInstances_keep env prov i
        (rest.filter fun i => (isImportable i).isNone) him
      cases ho : instanceOutcome env prov i with
      | error e =>
        rw [ho] at hkeep hkeepF
        rw [drainCS_error (nextCS_initCS_err hkeep),
          drainCS_error (nextCS_initCS_err hkeepF)]
      | ok v =>
        rw [ho] at hkeep hkeepF
        cases v with
        | none =>
          rw [drainCS_done (nextCS_initCS_ok hkeep),
            drainCS_done (nextCS_initCS_ok hkeepF)]
        | some r =>
          rw [drainCS_yield (nextCS_initCS_ok hkeep),
            drainCS_yield (nextCS_initCS_ok hkeepF), ih]

/-- Claim C6 counterexample: an instance whose settings are present but hold
no maintenance window and no insights config at all — so it lacks any
well-formed maintenance window and any well-formed query-insights
configuration — passes `isImportable` and is yielded by the iterator: it
contributes one resource to the iteration output, not zero. -/
theorem c6_counterexample :
    isImportable c6Inst = none
    ∧ c6Inst.settings = some ⟨none, none⟩
    ∧ drainCS c6Env c6Prov (initCS [c6Inst])
        = ([mkInstanceResource c6Prov c6Inst], none) := by
  refine ⟨rfl, rfl, ?_⟩
  have h1 : processInstances c6Env c6Prov [c6Inst]
      = ([], .ok (some (mkInstanceResource c6Prov c6Inst))) := rfl
  have h3 : processInstances c6Env c6Prov ([] : List DatabaseInstance)
      = ([], .ok none) := rfl
  rw [drainCS_yield (nextCS_initCS_ok h1), drainCS_done (nextCS_initCS_ok h3)]

/-- Claim C6 (amended): every instance failing the importability predicate
is excluded from the iteration output without an error from `Next` — the
drain over all instances equals the drain over the importable ones — and the
predicate rejects nil settings, a present maintenance window with day 0 and
hour 0, and a present insights config with query string length 0 (an
instance merely lacking a maintenance window or insights config passes, per
the counterexample). -/
theorem c6_nonimportable_excluded (env : CloudSQLEnv) (prov : Provider) :
    (∀ l : List DatabaseInstance,
      drainCS env prov (initCS l) =
        drainCS env prov (initCS (l.filter fun i => (isImportable i).isNone)))
    ∧ (∀ i : DatabaseInstance, i.settings = none → (isImportable i).isSome = true)
    ∧ (∀ (i : DatabaseInstance) (st : SqlSettings) (w : MaintenanceWindow),
        i.settings = some st → st.maintenanceWindow = some w →
        w.day = 0 → w.hour = 0 → (isImportable i).isSome = true)
    ∧ (∀ (i : DatabaseInstance) (st : SqlSettings) (cfg : InsightsConfig),
        i.settings = some st → st.maintenanceWindow = none →
        st.insightsConfig = some cfg → cfg.queryStringLength = 0 →
        (isImportable i).isSome = true) := by
  refine ⟨drainCS_filter_importable env prov, ?_, ?_, ?_⟩
  · intro i hi
    simp [isImportable, hi]
  · intro i st w hi hw hd hh
    simp [isImportable, hi, hw, hd, hh]
  · intro i st cfg hi hw hc hq
    simp [isImportable, hi, hw, hc, hq]

/-- Witness for C6 (amended): an instance with nil settings, listed in front
of the valid `c6Inst`, is filtered out of the drain and fails the
predicate. -/
theorem c6_witness :
    drainCS c6Env c6Prov (initCS [⟨"db0", "POSTGRES_14", "us", "STOPPED", none⟩, c6Inst])
      = drainCS c6Env c6Prov (initCS [c6Inst])
    ∧ (isImportable ⟨"db0", "POSTGRES_14", "us", "STOPPED", none⟩).isSome = true := by
  have h := c6_nonimportable_excluded c6Env c6Prov
  constructor
  · have h1 := h.1 [⟨"db0", "POSTGRES_14", "us", "STOPPED", none⟩, c6Inst]
    have hf : ([⟨"db0", "POSTGRES_14", "us", "STOPPED", none⟩, c6Inst].filter
        fun i => (isImportable i).isNone) = [c6Inst] := by decide
    rw [hf] at h1
    exact h1
  · exact h.2.1 _ rfl

/-- Unfolding of `drainST` when `Next` returns an error. -/
theorem drainST_error {env : StorageEnv} {prov : Provider} {s s2 : STState} {e : GoErr}
    (h : nextST env prov s = (s2, .error e)) : drainST env prov s = ([], some e) := by
  rw [drainST.eq_def]
  split
  next x e2 heq =>
    rw [h] at heq
    have h2 := Except.error.inj (congrArg Prod.snd heq)
    rw [h2]
  next x heq =>
    rw [h] at heq
    exact absurd (congrArg Prod.snd heq) (by simp)
  next x r heq =>
    rw [h] at heq
    exact absurd (congrArg Prod.snd heq) (by simp)

/-- Unfolding of `drainST` when `Next` signals exhaustion. -/
theorem drainST_done {env : StorageEnv} {prov : Provider} {s s2 : STState}
    (h : nextST env prov s = (s2, .ok none)) : drainST env prov s = ([], none) := by
  rw [drainST.eq_def]
  split
  next x e2 heq =>
    rw [h] at heq
    exact absurd (congrArg Prod.snd heq) (by simp)
  next x heq => rfl
  next x r heq =>
    rw [h] at heq
    exact absurd (congrArg Prod.snd heq) (by simp)

/-- Unfolding of `drainST` when `Next` yields a resource. -/
theorem drainST_yield {env : StorageEnv} {prov : Provider} {s s2 : STState} {r : Resource}
    (h : nextST env prov s = (s2, .ok (some r))) :
    drainST env prov s = (r :: (drainST env prov s2).1, (drainST env prov s2).2) := by
  rw [drainST.eq_def]
  split
  next x e2 heq =>
    rw [h] at heq
    exact absurd (congrArg Prod.snd heq) (by simp)
  next x heq =>
    rw [h] at heq
    exact absurd (congrArg Prod.snd heq) (by simp)
  next x r2 heq =>
    rw [h] at heq
    have hx : s2 = x := congrArg Prod.fst heq
    have h2 : r = r2 := Option.some.inj (Except.ok.inj (congrArg Prod.snd heq))
    rw [← hx, ← h2]

/-- Claim C8: draining a fresh storage iterator over any sequence of buckets
yields every bucket's resource and no terminal error, whatever the IAM
policy fetches do; and a bucket whose policy fetch fails is yielded with
zero IAM dependents. -/
theorem c8_bucket_iam_failure_nonfatal (env : StorageEnv) (prov : Provider) :
    (∀ bs : List BucketAttrs,
      drainST env prov (initST (bs.map Except.ok))
        = (bs.map (bucketYield env prov), none))
    ∧ (∀ (b : BucketAttrs) (e : String), env.policy b.name = .error e →
        (bucketYield env prov b).dependents = []) := by
  constructor
  · intro bs
    induction bs with
    | nil => exact drainST_done rfl
    | cons b rest ih =>
      have hn : nextST env prov (initST ((b :: rest).map Except.ok))
          = (initST (rest.map Except.ok), .ok (some (bucketYield env prov b))) := rfl
      rw [drainST_yield hn, ih]
      simp
  · intro b e h
    simp [bucketYield, getBucketIAMBindings, h, mkBucketResource]

/-- Witness for C8: three buckets, with the policy fetch for `b1` failing —
all three are yielded, `b1` with zero dependents, and no error. -/
theorem c8_witness :
    drainST c8Env c8Prov (initST [.ok c8B1, .ok c8B2, .ok c8B3])
      = ([bucketYield c8Env c8Prov c8B1, bucketYield c8Env c8Prov c8B2,
          bucketYield c8Env c8Prov c8B3], none)
    ∧ (bucketYield c8Env c8Prov c8B1).dependents = [] := by
  have h := c8_bucket_iam_failure_nonfatal c8Env c8Prov
  refine ⟨?_, h.2 c8B1 "permission denied" rfl⟩
  have h1 := h.1 [c8B1, c8B2, c8B3]
  simpa using h1

/-- After an error return from the un-closed cloudSQL iterator, the stored
error is returned again with the state unchanged — hence by every later
call. -/
theorem nextCS_error_sticky {env : CloudSQLEnv} {prov : Provider} {s s2 : CSState}
    {e : GoErr} (h1 : s.isClosed = false) (h2 : nextCS env prov s = (s2, .error e)) :
    nextCS env prov s2 = (s2, .error e) := by
  have hfields : s2.err = some e ∧ s2.isClosed = false := by
    simp only [nextCS, h1, Bool.false_eq_true, if_false] at h2
    split at h2
    next e0 herr =>
      have hs : s = s2 := congrArg Prod.fst h2
      have he : e0 = e := Except.error.inj (congrArg Prod.snd h2)
      rw [← hs, herr, he]
      exact ⟨rfl, h1⟩
    next herr =>
      split at h2
      next r q hq => exact absurd (congrArg Prod.snd h2) (by simp)
      next hq =>
        split at h2
        next rem v hp => exact absurd (congrArg Prod.snd h2) (by simp)
        next rem e0 hp =>
          have hs : s2 = ⟨rem, s.resourceQueue, some e0, false⟩ :=
            (congrArg Prod.fst h2).symm
          have he : e = e0 := (Except.error.inj (congrArg Prod.snd h2)).symm
          rw [hs, he]
          exact ⟨rfl, rfl⟩
  rcases hfields with ⟨he2, hc2⟩
  simp [nextCS, hc2, he2]

/-- After an error return from the un-closed storage iterator, the stored
error is returned again with the state unchanged — hence by every later
call. -/
theorem nextST_error_sticky {env : StorageEnv} {prov : Provider} {s s2 : STState}
    {e : GoErr} (h1 : s.isClosed = false) (h2 : nextST env prov s = (s2, .error e)) :
    nextST env prov s2 = (s2, .error e) := by
  have hfields : s2.err = some e ∧ s2.isClosed = false := by
    simp only [nextST, h1, Bool.false_eq_true, if_false] at h2
    split at h2
    next e0 herr =>
      have hs : s = s2 := congrArg Prod.fst h2
      have he : e0 = e := Except.error.inj (congrArg Prod.snd h2)
      rw [← hs, herr, he]
      exact ⟨rfl, h1⟩
    next herr =>
      split at h2
      next r q hq => exact absurd (congrArg Prod.snd h2) (by simp)
      next hq =>
        split at h2
        next hup => exact absurd (congrArg Prod.snd h2) (by simp)
        next e0 rest hup =>
          have hs : s2 = ⟨rest, s.resourceQueue,
              some (GoErr.err ("error iterating buckets: " ++ e0)), false⟩ :=
            (congrArg Prod.fst h2).symm
          have he : GoErr.err ("error iterating buckets: " ++ e0) = e :=
            Except.error.inj (congrArg Prod.snd h2)
          rw [hs, ← he]
          exact ⟨rfl, rfl⟩
        next attrs rest hup => exact absurd (congrArg Prod.snd h2) (by simp)
  rcases hfields with ⟨he2, hc2⟩
  simp [nextST, hc2, he2]

/-- Claim C9: iterator failure is sticky for both the cloudSQL and the
storage iterator: once `Next` on an un-closed iterator returns an error, the
returned state holds that error and every subsequent `Next` returns the same
error with the state unchanged. -/
theorem c9_iterator_error_sticky :
    (∀ (env : CloudSQLEnv) (prov : Provider) (s s2 : CSState) (e : GoErr),
      s.isClosed = false → nextCS env prov s = (s2, .error e) →
      nextCS env prov s2 = (s2, .error e))
    ∧ (∀ (env : StorageEnv) (prov : Provider) (t t2 : STState) (e : GoErr),
      t.isClosed = false → nextST env prov t = (t2, .error e) →
      nextST env prov t2 = (t2, .error e)) :=
  ⟨fun _ _ _ _ _ h1 h2 => nextCS_error_sticky h1 h2,
   fun _ _ _ _ _ h1 h2 => nextST_error_sticky h1 h2⟩

/-- Witness for C9: a database-listing failure poisons the cloudSQL
iterator, an upstream bucket-listing failure poisons the storage iterator;
in both, the following `Next` returns the same stored error. -/
theorem c9_witness :
    nextCS c9Env c6Prov (initCS [c9Inst]) = (⟨[], [], some c9Err, false⟩, .error c9Err)
    ∧ nextCS c9Env c6Prov ⟨[], [], some c9Err, false⟩
        = (⟨[], [], some c9Err, false⟩, .error c9Err)
    ∧ nextST c9StEnv c8Prov (initST [.error "precondition failed"])
        = (⟨[], [], some c9StErr, false⟩, .error c9StErr)
    ∧ nextST c9StEnv c8Prov ⟨[], [], some c9StErr, false⟩
        = (⟨[], [], some c9StErr, false⟩, .error c9StErr) := by
  have h1 : nextCS c9Env c6Prov (initCS [c9Inst])
      = (⟨[], [], some c9Err, false⟩, .error c9Err) := rfl
  have h3 : nextST c9StEnv c8Prov (initST [.error "precondition failed"])
      = (⟨[], [], some c9StErr, false⟩, .error c9StErr) := rfl
  exact ⟨h1, c9_iterator_error_sticky.1 c9Env c6Prov _ _ _ rfl h1,
    h3, c9_iterator_error_sticky.2 c9StEnv c8Prov _ _ _ rfl h3⟩

end Iterators

end Infrasync
